import Mathlib

/-!
Verification of the GlobalMobilityAdvisor collection and routing core.

This file is a shallow embedding, in Lean 4, of the stateful data-collection
and routing core of the Global-IQ application:

* the Sequential Collector (app/input_collector.py): CollectionState,
  process_answer, the confirmation three-way split, start_collection and the
  confirmation summary;
* the Structured Extractor and Completion Checker
  (app/conversational_collector.py): required_fields, is_complete,
  extract_information with its bracket-matching recovery, and the
  confirmation message;
* the Intent Router (app/enhanced_agent_router.py): route_query with its
  direct-phrase shortcuts, oracle delegation and error fallback;
* the salary parser (app/main.py, MCPClient._parse_salary);
* the merge loop applied to extraction results (test_full_flow.py).

Python strings are modelled as Lean String; the Python string operations
used by the code (lower, strip, split, replace of a single-character
pattern, substring membership) are modelled explicitly over the character
data so that every definition is executable and kernel-reducible.  Python
dictionaries are modelled as insertion-ordered association lists with
Python assignment semantics (update in place, else append).  Arbitrary
JSON-decoded Python values are modelled by the PyVal type, with Python
truthiness modelled by truthy.  The external text-completion oracle and the
standard-library JSON decoder are modelled as explicit parameters, as the
source treats them as opaque, possibly-failing dependencies.  Numeric
salary values are modelled exactly as rationals.
-/

namespace GlobalIQ

/-- Model of Python str.lower: lowercase every character. -/
def pyLower (s : String) : String :=
  ⟨s.data.map Char.toLower⟩

/-- Model of Python str.strip with no argument: drop leading and trailing
whitespace. -/
def pyStrip (s : String) : String :=
  ⟨((s.data.dropWhile Char.isWhitespace).reverse.dropWhile Char.isWhitespace).reverse⟩

/-- Model of Python str.replace of a single-character pattern by the empty
string: remove every occurrence of that character. -/
def removeChar (s : String) (c : Char) : String :=
  ⟨s.data.filter (fun d => d != c)⟩

/-- Model of Python str.split with no argument: split on whitespace runs and
drop empty chunks. -/
def pySplitWs (s : String) : List String :=
  ((s.data.splitOnP Char.isWhitespace).filter (fun l => !l.isEmpty)).map
    (fun l => ⟨l⟩)

/-- Boolean substring containment on character lists. -/
def listInfixOf (pat : List Char) : List Char → Bool
  | [] => pat.isEmpty
  | c :: rest => pat.isPrefixOf (c :: rest) || listInfixOf pat rest

/-- Model of the Python membership test pat in s on strings: substring
containment. -/
def pyInStr (pat s : String) : Bool :=
  listInfixOf pat.data s.data

/-- Model of a JSON-decoded Python value: a string, a dictionary, a list, or
None.  This is the value space the collection core manipulates after
decoding oracle output. -/
inductive PyVal where
  | pstr : String → PyVal
  | pdict : List (String × PyVal) → PyVal
  | plist : List PyVal → PyVal
  | pnone : PyVal

/-- Model of Python truthiness on PyVal: None is falsy, a string, dict or
list is truthy iff non-empty. -/
def truthy : PyVal → Bool
  | .pstr s => !s.isEmpty
  | .pdict d => !d.isEmpty
  | .plist l => !l.isEmpty
  | .pnone => false

/-- Model of Python dictionary assignment d[k] = v on an insertion-ordered
association list: update the first entry with key k in place, otherwise
append the new entry at the end. -/
def dictSet {α : Type} : List (String × α) → String → α → List (String × α)
  | [], k, v => [(k, v)]
  | (a, b) :: rest, k, v =>
    if a = k then (a, v) :: rest else (a, b) :: dictSet rest k v

theorem lookup_dictSet_self {α : Type} (d : List (String × α)) (k : String)
    (v : α) : (dictSet d k v).lookup k = some v := by
  induction d with
  | nil => simp [dictSet, List.lookup]
  | cons hd tl ih =>
    obtain ⟨a, b⟩ := hd
    by_cases hak : a = k
    · subst hak
      simp [dictSet, List.lookup]
    · simp only [dictSet, if_neg hak, List.lookup]
      have : (k == a) = false := by
        simp [beq_eq_false_iff_ne]
        exact fun h => hak h.symm
      rw [this]
      exact ih

theorem lookup_dictSet_ne {α : Type} (d : List (String × α)) (k : String)
    (v : α) (k' : String) (h : k' ≠ k) :
    (dictSet d k v).lookup k' = d.lookup k' := by
  induction d with
  | nil =>
    simp only [dictSet, List.lookup]
    have : (k' == k) = false := by simpa [beq_eq_false_iff_ne] using h
    rw [this]
  | cons hd tl ih =>
    obtain ⟨a, b⟩ := hd
    by_cases hak : a = k
    · subst hak
      simp only [dictSet, if_pos rfl, List.lookup]
      have : (k' == a) = false := by simpa [beq_eq_false_iff_ne] using h
      rw [this]
    · simp only [dictSet, if_neg hak, List.lookup]
      by_cases hk'a : k' = a
      · subst hk'a
        simp
      · have : (k' == a) = false := by simpa [beq_eq_false_iff_ne] using hk'a
        rw [this]
        exact ih

theorem string_data_append (a b : String) : (a ++ b).data = a.data ++ b.data := by
  cases a
  cases b
  rfl

theorem infix_foldl_acc {α : Type} (line : α → String) (p : α → Bool)
    (l : List α) : ∀ acc : String,
    acc.data <:+:
      (l.foldl (fun m x => if p x then m ++ line x else m) acc).data := by
  induction l with
  | nil => intro acc; exact List.infix_rfl
  | cons x rest ih =>
    intro acc
    by_cases hp : p x = true
    · have h1 : acc.data <:+: (acc ++ line x).data := by
        rw [string_data_append]
        exact (List.prefix_append _ _).isInfix
      have h2 := ih (acc ++ line x)
      simpa [hp] using h1.trans h2
    · simpa [hp] using ih acc

theorem infix_foldl_mem {α : Type} (line : α → String) (p : α → Bool)
    (l : List α) : ∀ (acc : String) (x : α), x ∈ l → p x = true →
    (line x).data <:+:
      (l.foldl (fun m y => if p y then m ++ line y else m) acc).data := by
  induction l with
  | nil => intro acc x hx; cases hx
  | cons y rest ih =>
    intro acc x hx hp
    rcases List.mem_cons.mp hx with h | h
    · subst h
      have h1 : (line x).data <:+: (acc ++ line x).data := by
        rw [string_data_append]
        exact (List.suffix_append _ _).isInfix
      have h2 := infix_foldl_acc line p rest (acc ++ line x)
      simpa [hp] using h1.trans h2
    · by_cases hpy : p y = true
      · simpa [hpy] using ih (acc ++ line y) x h hp
      · simpa [hpy] using ih acc x h hp

theorem infix_append_left {l : List Char} {a : String} (b : String)
    (h : l <:+: a.data) : l <:+: (a ++ b).data := by
  rw [string_data_append]
  exact h.trans (List.prefix_append _ _).isInfix

theorem infix_append_right {l : List Char} (a : String) {b : String}
    (h : l <:+: b.data) : l <:+: (a ++ b).data := by
  rw [string_data_append]
  exact h.trans (List.suffix_append _ _).isInfix

theorem infix_foldl_acc₀ {α : Type} (line : α → String) (l : List α) :
    ∀ acc : String,
    acc.data <:+: (l.foldl (fun m x => m ++ line x) acc).data := by
  induction l with
  | nil => intro acc; exact List.infix_rfl
  | cons x rest ih =>
    intro acc
    exact (infix_append_left (line x) List.infix_rfl).trans (ih (acc ++ line x))

theorem infix_foldl_mem₀ {α : Type} (line : α → String) (l : List α) :
    ∀ (acc : String) (x : α), x ∈ l →
    (line x).data <:+: (l.foldl (fun m y => m ++ line y) acc).data := by
  induction l with
  | nil => intro acc x hx; cases hx
  | cons y rest ih =>
    intro acc x hx
    rcases List.mem_cons.mp hx with h | h
    · subst h
      exact (infix_append_right acc List.infix_rfl).trans
        (infix_foldl_acc₀ line rest (acc ++ line x))
    · exact ih (acc ++ line y) x h

theorem lookup_dictSet_or {α : Type} (d : List (String × α)) (k : String)
    (v : α) (k' : String) :
    (dictSet d k v).lookup k' = some v ∨
    (dictSet d k v).lookup k' = d.lookup k' := by
  by_cases h : k' = k
  · subst h
    exact Or.inl (lookup_dictSet_self d k' v)
  · exact Or.inr (lookup_dictSet_ne d k v k' h)

namespace ConversationalCollector

/-- Field schema registry from ConversationalCollector.__init__
(app/conversational_collector.py): required fields per route, with the
dictionary lookup self.required_fields.get(route, \x7b\x7d) modelled by the
final else branch. -/
def required_fields (route : String) : List (String × String) :=
  if route = "compensation" then
    [("Origin Location", "Employee\x27s current city and country"),
     ("Destination Location", "Where the employee will relocate to"),
     ("Current Compensation", "Annual salary with currency"),
     ("Assignment Duration", "How long the assignment will last"),
     ("Job Level/Title", "Employee\x27s position or seniority level"),
     ("Family Size", "Number of family members relocating (including employee)"),
     ("Housing Preference", "Preferred housing arrangement")]
  else if route = "policy" then
    [("Origin Country", "Employee\x27s current country"),
     ("Destination Country", "Country they\x27re relocating to"),
     ("Assignment Type", "Type of assignment (Short-term, Long-term, Permanent, etc.)"),
     ("Assignment Duration", "Duration of the assignment"),
     ("Job Title", "Employee\x27s job title or position")]
  else []

/-- ConversationalCollector.is_complete: every required field of the route
must be present in the extracted data with a truthy value. -/
def is_complete (extracted_data : List (String × PyVal)) (route : String) :
    Bool :=
  (required_fields route).all fun f =>
    match extracted_data.lookup f.1 with
    | some v => truthy v
    | none => false

/-- C6: is_complete(domain, fields) returns true if and only if every field
name in the domain schema is present in the map with a non-empty, non-null
(truthy) value; it returns true for any domain whose schema is empty, in
particular for an unrecognized domain name, which resolves to an empty
schema. -/
theorem is_complete_iff_all_truthy (route : String)
    (fields : List (String × PyVal)) :
    (is_complete fields route = true ↔
      ∀ f ∈ required_fields route,
        ∃ v, fields.lookup f.1 = some v ∧ truthy v = true) ∧
    (required_fields route = [] → is_complete fields route = true) ∧
    (route ≠ "compensation" → route ≠ "policy" →
      is_complete fields route = true) := by
  refine ⟨?_, ?_, ?_⟩
  · rw [is_complete, List.all_eq_true]
    constructor
    · intro h f hf
      have hh := h f hf
      cases hl : fields.lookup f.1 with
      | none => rw [hl] at hh; simp at hh
      | some v =>
        rw [hl] at hh
        exact ⟨v, rfl, hh⟩
    · intro h f hf
      obtain ⟨v, hv, ht⟩ := h f hf
      rw [hv]
      exact ht
  · intro he
    rw [is_complete, he]
    rfl
  · intro h1 h2
    rw [is_complete]
    have : required_fields route = [] := by
      rw [required_fields, if_neg h1, if_neg h2]
    rw [this]
    rfl

/-- Witness for C6: a domain with no registered schema is vacuously
complete, even with an empty field map. -/
theorem is_complete_iff_all_truthy_w :
    is_complete [] "relocation" = true :=
  (is_complete_iff_all_truthy "relocation" []).2.2 (by decide) (by decide)

/-- ConversationalCollector._generate_confirmation_message: list every
truthy collected field as a bulleted field/value line and ask for
confirmation.  Collected values are strings in the application flow, so the
field map is modelled with string values and the Python truthiness test
if value with non-emptiness. -/
def generate_confirmation_message (collected_data : List (String × String)) :
    String :=
  let summary := collected_data.foldl
    (fun s kv => if !kv.2.isEmpty
      then s ++ ("• **" ++ kv.1 ++ "**: " ++ kv.2 ++ "\n") else s)
    "**Here\x27s what I\x27ve gathered:**\n\n"
  summary ++ "\n**Is this information correct?** (Reply \x27yes\x27 to proceed or tell me what to change)"

end ConversationalCollector

namespace SessionMerge

/-- Merge loop applied to one extraction result, from test_full_flow.py
(and test_conversational_collector.py): for each (field, value) in
extraction["extracted_fields"], if the value is truthy it is written into
the session collected data; falsy (null, empty, missing) values are
skipped. -/
def merge_extracted (collected : List (String × PyVal))
    (extraction_fields : List (String × PyVal)) : List (String × PyVal) :=
  extraction_fields.foldl
    (fun acc fv => if truthy fv.2 then dictSet acc fv.1 fv.2 else acc)
    collected

theorem merge_extracted_step (e : List (String × PyVal)) :
    ∀ (c : List (String × PyVal)) (f : String) (v : PyVal),
      c.lookup f = some v → truthy v = true →
      ∃ w, (merge_extracted c e).lookup f = some w ∧ truthy w = true ∧
        (w = v ∨ (f, w) ∈ e) := by
  induction e with
  | nil =>
    intro c f v hv ht
    exact ⟨v, hv, ht, Or.inl rfl⟩
  | cons kv rest ih =>
    intro c f v hv ht
    obtain ⟨k, x⟩ := kv
    by_cases hx : truthy x = true
    · by_cases hkf : f = k
      · subst hkf
        have h1 : (dictSet c f x).lookup f = some x := lookup_dictSet_self c f x
        obtain ⟨w, hw, htw, hor⟩ := ih (dictSet c f x) f x h1 hx
        refine ⟨w, ?_, htw, ?_⟩
        · simpa [merge_extracted, hx] using hw
        · rcases hor with h | h
          · exact Or.inr (by simp [h])
          · exact Or.inr (List.mem_cons_of_mem _ h)
      · have h1 : (dictSet c k x).lookup f = c.lookup f :=
          lookup_dictSet_ne c k x f hkf
        obtain ⟨w, hw, htw, hor⟩ := ih (dictSet c k x) f v (by rw [h1]; exact hv) ht
        refine ⟨w, ?_, htw, ?_⟩
        · simpa [merge_extracted, hx] using hw
        · rcases hor with h | h
          · exact Or.inl h
          · exact Or.inr (List.mem_cons_of_mem _ h)
    · obtain ⟨w, hw, htw, hor⟩ := ih c f v hv ht
      refine ⟨w, ?_, htw, ?_⟩
      · simpa [merge_extracted, hx] using hw
      · rcases hor with h | h
        · exact Or.inl h
        · exact Or.inr (List.mem_cons_of_mem _ h)

/-- C4: for every sequence of extraction results merged into a session
collected-data map, once a field holds a truthy (non-null) value it always
holds a truthy value afterwards: a later null, empty or missing value for
that field never erases it, and the value can only change to a value that
literally occurs (for that field) in one of the merged extraction
results. -/
theorem monotonic_capture (results : List (List (String × PyVal)))
    (collected : List (String × PyVal)) (f : String) (v : PyVal)
    (hv : collected.lookup f = some v) (ht : truthy v = true) :
    ∃ w, (results.foldl merge_extracted collected).lookup f = some w ∧
      truthy w = true ∧ (w = v ∨ ∃ r ∈ results, (f, w) ∈ r) := by
  induction results generalizing collected v with
  | nil => exact ⟨v, hv, ht, Or.inl rfl⟩
  | cons e rest ih =>
    obtain ⟨w₁, hw₁, ht₁, hor₁⟩ := merge_extracted_step e collected f v hv ht
    obtain ⟨w, hw, htw, hor⟩ := ih (merge_extracted collected e) w₁ hw₁ ht₁
    refine ⟨w, by simpa using hw, htw, ?_⟩
    rcases hor with h | ⟨r, hr, hm⟩
    · subst h
      rcases hor₁ with h | h
      · exact Or.inl h
      · exact Or.inr ⟨e, List.mem_cons_self e rest, h⟩
    · exact Or.inr ⟨r, List.mem_cons_of_mem _ hr, hm⟩

/-- Witness for C4: a captured Origin Location survives a later extraction
result that reports the field as null. -/
theorem monotonic_capture_w :
    ∃ w, (([[("Origin Location", PyVal.pnone)]].foldl merge_extracted
        [("Origin Location", PyVal.pstr "Chicago, USA")]).lookup
        "Origin Location" = some w ∧ truthy w = true ∧
      (w = PyVal.pstr "Chicago, USA" ∨
        ∃ r ∈ [[("Origin Location", PyVal.pnone)]], ("Origin Location", w) ∈ r)) :=
  monotonic_capture [[("Origin Location", PyVal.pnone)]]
    [("Origin Location", PyVal.pstr "Chicago, USA")]
    "Origin Location" (PyVal.pstr "Chicago, USA") (by simp [List.lookup]) (by rfl)

end SessionMerge

namespace InputCollector

/-- One parsed question block from an agent question file
(InputCollector._parse_questions_file): title, question text, enumerated
options and a format hint. -/
structure Question where
  title : String
  question : String
  options : List String
  format : String
deriving DecidableEq

/-- The per-domain collection state stored under the agent_type_collection
session key: current question index, collected answers, completion flag,
and the awaiting-confirmation flag (absent in the freshly created Python
dict and read with .get, so modelled with its False default). -/
structure CollectionState where
  current_question : Nat
  answers : List (String × String)
  completed : Bool
  awaiting_confirmation : Bool
deriving DecidableEq

/-- InputCollector._get_next_question: format the current question with
title, body, optional options, optional format hint and a progress
indicator; past the end of the question list it reports that all questions
are completed.  The session is returned unchanged by the source, so only
the message is modelled. -/
def get_next_question (questions : List Question) (st : CollectionState) :
    String :=
  if h : st.current_question < questions.length then
    let q := questions.get ⟨st.current_question, h⟩
    let t1 := "**" ++ q.title ++ "**\n\n" ++ q.question
    let t2 := if q.options.isEmpty then t1
      else t1 ++ ("\n\n**Options:** " ++ String.intercalate ", " q.options)
    let t3 := if q.format.isEmpty then t2
      else t2 ++ ("\n\n*Format: " ++ q.format ++ "*")
    t3 ++ ("\n\n📊 Question " ++ toString (st.current_question + 1) ++ " of "
      ++ toString questions.length)
  else
    "All questions completed!"

/-- InputCollector._generate_confirmation_summary: a deterministic summary
listing every collected answer as a bulleted field/value line, followed by
an explicit yes/no confirmation request. -/
def generate_confirmation_summary (agent_type : String)
    (answers : List (String × String)) : String :=
  let agent_name := if agent_type = "compensation" then
    "Compensation Calculator" else "Policy Analyzer"
  let header := "📋 **Final Confirmation - " ++ agent_name ++ "**\n\n"
    ++ "Please review the information you\x27ve provided:\n\n"
  let body := answers.foldl
    (fun message kv => message ++ ("• **" ++ kv.1 ++ ":** " ++ kv.2 ++ "\n"))
    header
  body ++ "\n❓ **Is all this information correct?**\n\n"
    ++ "• Type **\x27yes\x27** or **\x27confirm\x27** to proceed with the analysis\n"
    ++ "• Type **\x27no\x27** or **\x27edit\x27** if you need to make changes\n"

/-- InputCollector._generate_completion_message. -/
def generate_completion_message (agent_type : String) : String :=
  let agent_name := if agent_type = "compensation" then
    "Compensation Calculator" else "Policy Analyzer"
  "✅ **" ++ agent_name ++ " - Processing Confirmed!**\n\n"
    ++ ("🔄 Now processing your data through our " ++ agent_name
      ++ " AI engine...\n\n")
    ++ "*This may take a few moments while we run the calculations and analysis.*"

/-- The edit message built in the rejection branch of
InputCollector._handle_confirmation_response. -/
def edit_message : String :=
  "📝 **No problem! Let\x27s edit your information.**\n\n"
    ++ "I\x27ll ask you the questions again. Your previous answers will be shown, and you can either:\n"
    ++ "• Keep the same answer by pressing Enter\n"
    ++ "• Type a new answer to replace it\n\n"
    ++ "Let\x27s start over:\n\n"

/-- The invalid-response message built in the final branch of
InputCollector._handle_confirmation_response. -/
def invalid_response_message (user_input : String) : String :=
  "❌ **Please respond with:**\n\n"
    ++ "• **\x27yes\x27** or **\x27confirm\x27** to proceed\n"
    ++ "• **\x27no\x27** or **\x27edit\x27** to make changes\n\n"
    ++ ("Your response: \x27" ++ user_input ++ "\x27 was not recognized.")

/-- The affirmative reply set of _handle_confirmation_response. -/
def affirmative_responses : List String :=
  ["yes", "y", "confirm", "confirmed", "correct", "ok", "okay"]

/-- The negative reply set of _handle_confirmation_response. -/
def negative_responses : List String :=
  ["no", "n", "edit", "change", "incorrect", "wrong"]

/-- InputCollector._handle_confirmation_response: lower-case and strip the
reply; an affirmative reply completes the collection, a negative reply
resets to question 0 keeping the answers, anything else is rejected with a
re-prompt and no state change.  Returns (message, state, is_completed). -/
def handle_confirmation_response (agent_type : String)
    (questions : List Question) (user_input : String)
    (st : CollectionState) : String × CollectionState × Bool :=
  let user_response := pyStrip (pyLower user_input)
  if affirmative_responses.contains user_response then
    let st' := { st with completed := true, awaiting_confirmation := false }
    (generate_completion_message agent_type, st', true)
  else if negative_responses.contains user_response then
    let st' := { st with current_question := 0, awaiting_confirmation := false }
    (edit_message ++ get_next_question questions st', st', false)
  else
    (invalid_response_message user_input, st, false)

/-- InputCollector.process_answer for a session that already holds a
collection state: delegate to confirmation handling when awaiting
confirmation; otherwise store the stripped answer under the current
question title, advance the index, and either switch to the confirmation
summary (when the index reaches the number of questions) or ask the next
question.  Past the end it reports the collection as already completed. -/
def process_answer (agent_type : String) (questions : List Question)
    (user_input : String) (st : CollectionState) :
    String × CollectionState × Bool :=
  if st.awaiting_confirmation then
    handle_confirmation_response agent_type questions user_input st
  else if h : st.current_question < questions.length then
    let q := questions.get ⟨st.current_question, h⟩
    let answers' := dictSet st.answers q.title (pyStrip user_input)
    if questions.length ≤ st.current_question + 1 then
      let st' := { st with answers := answers'
                           current_question := st.current_question + 1
                           awaiting_confirmation := true }
      (generate_confirmation_summary agent_type answers', st', false)
    else
      let st' := { st with answers := answers'
                           current_question := st.current_question + 1 }
      (get_next_question questions st', st', false)
  else
    ("Collection already completed!", st, true)

/-- InputCollector.start_collection for a registered agent type: create the
collection state only when the session does not already hold one, then
return the next question for whatever state is now present.  A state left
over from a finished collection is reused as is. -/
def start_collection (questions : List Question)
    (session : Option CollectionState) : String × CollectionState :=
  match session with
  | none =>
    let st : CollectionState :=
      { current_question := 0, answers := [], completed := false,
        awaiting_confirmation := false }
    (get_next_question questions st, st)
  | some st => (get_next_question questions st, st)

/-- C1: while the collector is awaiting confirmation, processing a reply is
a three-way case split on the lower-cased, stripped reply: an affirmative
reply sets completed and clears awaiting_confirmation, leaving answers and
the question index unchanged; a negative reply resets the question index to
0 and clears awaiting_confirmation while preserving answers and the
completed flag (so completed stays false); any other reply returns the
re-prompt message and leaves the whole state unchanged. -/
theorem handle_confirmation_cases (agent_type : String)
    (questions : List Question) (user_input : String) (st : CollectionState)
    (hw : st.awaiting_confirmation = true) :
    (affirmative_responses.contains (pyStrip (pyLower user_input)) = true →
      (process_answer agent_type questions user_input st).2.1.completed = true ∧
      (process_answer agent_type questions user_input st).2.1.awaiting_confirmation = false ∧
      (process_answer agent_type questions user_input st).2.1.answers = st.answers ∧
      (process_answer agent_type questions user_input st).2.1.current_question = st.current_question ∧
      (process_answer agent_type questions user_input st).2.2 = true) ∧
    (affirmative_responses.contains (pyStrip (pyLower user_input)) = false →
      negative_responses.contains (pyStrip (pyLower user_input)) = true →
      (process_answer agent_type questions user_input st).2.1.current_question = 0 ∧
      (process_answer agent_type questions user_input st).2.1.awaiting_confirmation = false ∧
      (process_answer agent_type questions user_input st).2.1.answers = st.answers ∧
      (process_answer agent_type questions user_input st).2.1.completed = st.completed ∧
      (process_answer agent_type questions user_input st).2.2 = false) ∧
    (affirmative_responses.contains (pyStrip (pyLower user_input)) = false →
      negative_responses.contains (pyStrip (pyLower user_input)) = false →
      (process_answer agent_type questions user_input st).2.1 = st ∧
      (process_answer agent_type questions user_input st).2.2 = false ∧
      (process_answer agent_type questions user_input st).1 =
        invalid_response_message user_input) := by
  refine ⟨?_, ?_, ?_⟩
  · intro ha
    have ha' := List.mem_of_elem_eq_true ha
    simp [process_answer, hw, handle_confirmation_response, ha']
  · intro ha hn
    have ha' : pyStrip (pyLower user_input) ∉ affirmative_responses := by
      simpa using ha
    have hn' := List.mem_of_elem_eq_true hn
    simp [process_answer, hw, handle_confirmation_response, ha', hn']
  · intro ha hn
    have ha' : pyStrip (pyLower user_input) ∉ affirmative_responses := by
      simpa using ha
    have hn' : pyStrip (pyLower user_input) ∉ negative_responses := by
      simpa using hn
    simp [process_answer, hw, handle_confirmation_response, ha', hn']

/-- Witness for C1: the reply banana at the confirmation step is rejected
with the re-prompt and the state is fully unchanged. -/
theorem handle_confirmation_cases_w :
    (process_answer "compensation" [] "banana"
      ⟨2, [("Origin Location", "Chicago")], false, true⟩).2.1 =
      ⟨2, [("Origin Location", "Chicago")], false, true⟩ ∧
    (process_answer "compensation" [] "banana"
      ⟨2, [("Origin Location", "Chicago")], false, true⟩).2.2 = false ∧
    (process_answer "compensation" [] "banana"
      ⟨2, [("Origin Location", "Chicago")], false, true⟩).1 =
      invalid_response_message "banana" :=
  (handle_confirmation_cases "compensation" [] "banana"
      ⟨2, [("Origin Location", "Chicago")], false, true⟩ rfl).2.2
    (by decide) (by decide)

/-- C8 counterexample: after a completed collection, start_collection on
the same domain does not yield a fresh collection state; it returns the
finished instance unchanged (completed still true, index past the end, the
old answers still present). -/
theorem start_collection_not_fresh :
    (start_collection [⟨"Origin Location", "Where is the employee now?", [], ""⟩]
        (some ⟨1, [("Origin Location", "Chicago")], true, false⟩)).2 ≠
      ⟨0, [], false, false⟩ ∧
    (start_collection [⟨"Origin Location", "Where is the employee now?", [], ""⟩]
        (some ⟨1, [("Origin Location", "Chicago")], true, false⟩)).2.completed
      = true := by
  constructor
  · decide
  · rfl

/-- C8 amended: start_collection reuses whatever collection state the
session already holds for the domain, even after completed has become true;
the finished instance is returned unchanged together with the message that
all questions are completed.  Only when the session holds no state for the
domain is a fresh state (index 0, empty answers, not completed) created. -/
theorem start_collection_reuses (questions : List Question)
    (st : CollectionState) (hc : st.completed = true)
    (hq : questions.length ≤ st.current_question) :
    (start_collection questions (some st)).2 = st ∧
    (start_collection questions (some st)).2.completed = true ∧
    (start_collection questions (some st)).1 = "All questions completed!" ∧
    (start_collection questions none).2 =
      { current_question := 0, answers := [], completed := false,
        awaiting_confirmation := false } := by
  refine ⟨rfl, hc, ?_, rfl⟩
  rw [start_collection, get_next_question, dif_neg (by omega)]

/-- Witness for C8 amended: a finished one-question collection is reused as
is by a subsequent start_collection. -/
theorem start_collection_reuses_w :
    (start_collection [⟨"Origin Country", "Which country?", [], ""⟩]
        (some ⟨1, [("Origin Country", "USA")], true, false⟩)).2 =
      ⟨1, [("Origin Country", "USA")], true, false⟩ ∧
    (start_collection [⟨"Origin Country", "Which country?", [], ""⟩]
        (some ⟨1, [("Origin Country", "USA")], true, false⟩)).2.completed = true ∧
    (start_collection [⟨"Origin Country", "Which country?", [], ""⟩]
        (some ⟨1, [("Origin Country", "USA")], true, false⟩)).1 =
      "All questions completed!" ∧
    (start_collection [⟨"Origin Country", "Which country?", [], ""⟩] none).2 =
      { current_question := 0, answers := [], completed := false,
        awaiting_confirmation := false } :=
  start_collection_reuses [⟨"Origin Country", "Which country?", [], ""⟩]
    ⟨1, [("Origin Country", "USA")], true, false⟩ rfl (by decide)

set_option maxHeartbeats 1600000 in
/-- C9: the confirmation summaries are deterministic functions of their
inputs (they are plain functions with no oracle parameter), and the value
of every collected field occurs literally in the output: the Sequential
Collector summary renders every answer as a bulleted field/value line (so
in particular every non-empty value literally appears) and ends with an
explicit yes/no confirmation request; the Structured Extractor confirmation
message likewise contains the literal value of every non-empty field. -/
theorem confirmation_summary_contains_values (agent_type : String)
    (answers : List (String × String)) (collected : List (String × String)) :
    (∀ kv ∈ answers,
      kv.2.data <:+: (generate_confirmation_summary agent_type answers).data ∧
      ("• **" ++ kv.1 ++ ":** " ++ kv.2 ++ "\n").data <:+:
        (generate_confirmation_summary agent_type answers).data) ∧
    ("• Type **\x27yes\x27** or **\x27confirm\x27** to proceed with the analysis\n").data
      <:+: (generate_confirmation_summary agent_type answers).data ∧
    ("• Type **\x27no\x27** or **\x27edit\x27** if you need to make changes\n").data
      <:+: (generate_confirmation_summary agent_type answers).data ∧
    (∀ kv ∈ collected, kv.2 ≠ "" →
      kv.2.data <:+:
        (ConversationalCollector.generate_confirmation_message collected).data) := by
  refine ⟨?_, ?_, ?_, ?_⟩
  · intro kv hkv
    constructor
    · simp only [generate_confirmation_summary]
      apply infix_append_left
      apply infix_append_left
      apply infix_append_left
      refine List.IsInfix.trans ?_
        (infix_foldl_mem₀ (fun kv => "• **" ++ kv.1 ++ ":** " ++ kv.2 ++ "\n")
          answers _ kv hkv)
      apply infix_append_left
      exact infix_append_right _ List.infix_rfl
    · simp only [generate_confirmation_summary]
      apply infix_append_left
      apply infix_append_left
      apply infix_append_left
      exact infix_foldl_mem₀ (fun kv => "• **" ++ kv.1 ++ ":** " ++ kv.2 ++ "\n")
        answers _ kv hkv
  · simp only [generate_confirmation_summary]
    apply infix_append_left
    exact infix_append_right _ List.infix_rfl
  · simp only [generate_confirmation_summary]
    exact infix_append_right _ List.infix_rfl
  · intro kv hkv hne
    simp only [ConversationalCollector.generate_confirmation_message]
    apply infix_append_left
    have hp : (!kv.2.isEmpty) = true := by
      have h1 : ¬ (kv.2.isEmpty = true) :=
        fun h => hne ((String.isEmpty_iff kv.2).mp h)
      have h2 : kv.2.isEmpty = false := Bool.eq_false_iff.mpr h1
      simp [h2]
    refine List.IsInfix.trans ?_
      (infix_foldl_mem (fun kv => "• **" ++ kv.1 ++ "**: " ++ kv.2 ++ "\n")
        (fun kv => !kv.2.isEmpty) collected _ kv hkv hp)
    apply infix_append_left
    exact infix_append_right _ List.infix_rfl

/-- Witness for C9: both summaries literally contain a concrete collected
value. -/
theorem confirmation_summary_contains_values_w :
    "Chicago, USA".data <:+:
      (generate_confirmation_summary "compensation"
        [("Origin Location", "Chicago, USA")]).data ∧
    "4".data <:+:
      (ConversationalCollector.generate_confirmation_message
        [("Family Size", "4")]).data :=
  ⟨(((confirmation_summary_contains_values "compensation"
        [("Origin Location", "Chicago, USA")] [("Family Size", "4")]).1
      ("Origin Location", "Chicago, USA") (by simp)).1),
   ((confirmation_summary_contains_values "compensation"
        [("Origin Location", "Chicago, USA")] [("Family Size", "4")]).2.2.2
      ("Family Size", "4") (by simp) (by decide))⟩

end InputCollector

namespace EnhancedAgentRouter

/-- The direct compensation phrases of EnhancedAgentRouter.route_query. -/
def compensation_direct : List String :=
  ["compensation", "salary", "pay", "money", "cost", "compensation calculator"]

/-- The direct policy phrases of EnhancedAgentRouter.route_query. -/
def policy_direct : List String :=
  ["policy", "policies", "visa", "immigration", "compliance", "policy analyzer"]

/-- The guidance phrases of EnhancedAgentRouter.route_query, matched by
substring containment. -/
def guidance_phrases : List String :=
  ["who are you", "what can you do", "help me", "what else"]

/-- The route names of the four prompt infos, in declaration order. -/
def route_names : List String :=
  ["policy", "compensation", "both_policy_and_compensation", "guidance_fallback"]

/-- The result dictionary of EnhancedAgentRouter.route_query: the
destination value, the matched prompt info (by name), the success flag and
the routing_method string.  The next_inputs member always carries the raw
input back and is omitted. -/
structure RouteResult where
  destination : PyVal
  route_info : Option String
  success : Bool
  routing_method : String

/-- Python equality test between a value and a string: true only for an
equal string, false for any other value shape. -/
def pyEqStr : PyVal → String → Bool
  | .pstr s, n => s == n
  | _, _ => false

/-- The success-path result dictionary of route_query: route_info is the
first prompt info whose name equals the destination, success is True and
routing_method is the literal string llm on every success path, including
the direct-phrase shortcuts. -/
def mk_route_result (dest : PyVal) : RouteResult :=
  { destination := dest
    route_info := route_names.find? (fun n => pyEqStr dest n)
    success := true
    routing_method := "llm" }

/-- The outer-except fallback result of route_query: guidance_fallback with
success False and routing_method fallback. -/
def error_fallback_result : RouteResult :=
  { destination := .pstr "guidance_fallback"
    route_info := some "guidance_fallback"
    success := false
    routing_method := "fallback" }

/-- EnhancedAgentRouter.route_query.  The delegated LLM router chain call
is modelled by the oracle argument: Except.error is a raised exception (the
inner except routes it to guidance_fallback and continues on the success
path) and Except.ok is the returned Python value.  A dict result is
unwrapped through its destination_and_inputs member when present; a
non-dict result is replaced by a guidance_fallback dict; the destination is
then read with .get and its default.  Reading .get on a non-dict
destination_and_inputs value raises AttributeError, which the outer except
converts to the error fallback result - the function itself never
raises. -/
def route_query (oracle : Except Unit PyVal) (user_input : String) :
    RouteResult :=
  let user_input_lower := pyStrip (pyLower user_input)
  if compensation_direct.contains user_input_lower then
    mk_route_result (.pstr "compensation")
  else if policy_direct.contains user_input_lower then
    mk_route_result (.pstr "policy")
  else if guidance_phrases.any (fun phrase => pyInStr phrase user_input_lower) then
    mk_route_result (.pstr "guidance_fallback")
  else
    match oracle with
    | .error _ => mk_route_result (.pstr "guidance_fallback")
    | .ok routing_result =>
      let destination_info : PyVal :=
        match routing_result with
        | .pdict entries =>
          match entries.lookup "destination_and_inputs" with
          | some v => v
          | none => routing_result
        | _ => .pdict [("destination", .pstr "guidance_fallback")]
      match destination_info with
      | .pdict d => mk_route_result ((d.lookup "destination").getD
          (.pstr "guidance_fallback"))
      | _ => error_fallback_result

/-- The four legal destinations as Python values. -/
def four_destinations : List PyVal :=
  [.pstr "policy", .pstr "compensation", .pstr "both_policy_and_compensation",
   .pstr "guidance_fallback"]

/-- C2 counterexample: with an oracle result whose destination member is an
arbitrary string, route_query returns that string as the destination, which
is none of the four destinations - the claim that the destination is always
one of the four even for arbitrary oracle results is false. -/
theorem route_query_arbitrary_destination :
    (route_query (.ok (.pdict [("destination", .pstr "banana")]))
      "mystery question").destination = .pstr "banana" ∧
    (PyVal.pstr "banana") ∉ four_destinations := by
  constructor
  · rfl
  · intro h
    simp [four_destinations] at h

/-- C2 amended: route_query is total (it returns a result for every input
string and every oracle behavior, including a raised oracle exception) and
its destination is one of the four destinations in every case except one:
when the oracle returns a dictionary that carries a destination value
(directly or under destination_and_inputs), that value is passed through
verbatim, whatever it is. -/
theorem route_query_amended (oracle : Except Unit PyVal) (user_input : String) :
    (route_query oracle user_input).destination ∈ four_destinations ∨
    (∃ entries, oracle = .ok (.pdict entries) ∧
      ((∃ dv, entries.lookup "destination" = some dv ∧
          entries.lookup "destination_and_inputs" = none ∧
          (route_query oracle user_input).destination = dv) ∨
       (∃ inner dv, entries.lookup "destination_and_inputs" = some (.pdict inner) ∧
          inner.lookup "destination" = some dv ∧
          (route_query oracle user_input).destination = dv))) := by
  by_cases h1 : compensation_direct.contains (pyStrip (pyLower user_input)) = true
  · left
    rw [route_query.eq_def, if_pos h1]
    simp [mk_route_result, four_destinations]
  · by_cases h2 : policy_direct.contains (pyStrip (pyLower user_input)) = true
    · left
      rw [route_query.eq_def, if_neg h1, if_pos h2]
      simp [mk_route_result, four_destinations]
    · by_cases h3 : guidance_phrases.any
          (fun phrase => pyInStr phrase (pyStrip (pyLower user_input))) = true
      · left
        rw [route_query.eq_def, if_neg h1, if_neg h2, if_pos h3]
        simp [mk_route_result, four_destinations]
      · have hbase : ∀ o : Except Unit PyVal, route_query o user_input =
            (match o with
            | .error _ => mk_route_result (.pstr "guidance_fallback")
            | .ok routing_result =>
              match
                (match routing_result with
                | .pdict entries =>
                  match entries.lookup "destination_and_inputs" with
                  | some v => v
                  | none => routing_result
                | _ => .pdict [("destination", .pstr "guidance_fallback")]) with
              | .pdict d => mk_route_result ((d.lookup "destination").getD
                  (.pstr "guidance_fallback"))
              | _ => error_fallback_result) := by
          intro o
          rw [route_query.eq_def, if_neg h1, if_neg h2, if_neg h3]
        cases oracle with
        | error e =>
          left
          rw [hbase]
          simp [mk_route_result, four_destinations]
        | ok routing_result =>
          cases routing_result with
          | pstr s =>
            left
            rw [hbase]
            simp [mk_route_result, four_destinations, List.lookup]
          | plist l =>
            left
            rw [hbase]
            simp [mk_route_result, four_destinations, List.lookup]
          | pnone =>
            left
            rw [hbase]
            simp [mk_route_result, four_destinations, List.lookup]
          | pdict entries =>
            rcases hdai : entries.lookup "destination_and_inputs" with _ | v
            · rcases hdest : entries.lookup "destination" with _ | dv
              · left
                rw [hbase]
                simp [hdai, hdest, mk_route_result, four_destinations]
              · right
                exact ⟨entries, rfl, Or.inl ⟨dv, hdest, hdai, by
                  rw [hbase]
                  simp [hdai, hdest, mk_route_result]⟩⟩
            · cases v with
              | pdict inner =>
                rcases hdest : inner.lookup "destination" with _ | dv
                · left
                  rw [hbase]
                  simp [hdai, hdest, mk_route_result, four_destinations]
                · right
                  exact ⟨entries, rfl, Or.inr ⟨inner, dv, hdai, hdest, by
                    rw [hbase]
                    simp [hdai, hdest, mk_route_result]⟩⟩
              | pstr s =>
                left
                rw [hbase]
                simp [hdai, error_fallback_result, four_destinations]
              | plist l =>
                left
                rw [hbase]
                simp [hdai, error_fallback_result, four_destinations]
              | pnone =>
                left
                rw [hbase]
                simp [hdai, error_fallback_result, four_destinations]

/-- C7 counterexample: for the exact input salary the router does route to
compensation without consulting the oracle, but the routing_method recorded
in the result is the literal string llm, not direct_phrase - route_query
hardcodes routing_method llm on every success path. -/
theorem route_query_salary_method_llm :
    (route_query (.error ()) "salary").destination = .pstr "compensation" ∧
    (route_query (.error ()) "salary").routing_method = "llm" ∧
    "llm" ≠ "direct_phrase" := by
  refine ⟨rfl, rfl, by decide⟩

/-- C7 amended: any input that lower-cases and strips to salary routes to
destination compensation without invoking the oracle (the result is
identical for every pair of oracle behaviors), with success True; the
routing_method reported is llm, not direct_phrase. -/
theorem route_query_salary_direct (o₁ o₂ : Except Unit PyVal) (s : String)
    (h : pyStrip (pyLower s) = "salary") :
    route_query o₁ s = route_query o₂ s ∧
    (route_query o₁ s).destination = .pstr "compensation" ∧
    (route_query o₁ s).routing_method = "llm" ∧
    (route_query o₁ s).success = true := by
  have hc : compensation_direct.contains (pyStrip (pyLower s)) = true := by
    rw [h]
    decide
  have hrq : ∀ o : Except Unit PyVal,
      route_query o s = mk_route_result (.pstr "compensation") := by
    intro o
    rw [route_query.eq_def, if_pos hc]
  rw [hrq o₁, hrq o₂]
  exact ⟨rfl, rfl, rfl, rfl⟩

/-- Witness for C7 amended: a casing and whitespace variant of salary
routes to compensation identically under two different oracle
behaviors. -/
theorem route_query_salary_direct_w :
    route_query (.error ()) "  SALARY " = route_query (.ok .pnone) "  SALARY " ∧
    (route_query (.error ()) "  SALARY ").destination = .pstr "compensation" ∧
    (route_query (.error ()) "  SALARY ").routing_method = "llm" ∧
    (route_query (.error ()) "  SALARY ").success = true :=
  route_query_salary_direct (.error ()) (.ok .pnone) "  SALARY " (by decide)

end EnhancedAgentRouter

/-- Model of Python str.find for a single character: index of the first
occurrence, as an offset option. -/
def listFindIdx (c : Char) : List Char → Option Nat
  | [] => none
  | x :: xs => if x == c then some 0 else (listFindIdx c xs).map (· + 1)

theorem listFindIdx_none (c : Char) :
    ∀ l : List Char, c ∉ l → listFindIdx c l = none := by
  intro l
  induction l with
  | nil => intro; rfl
  | cons x xs ih =>
    intro h
    have hx : (x == c) = false := by
      refine beq_eq_false_iff_ne.mpr fun hxc => ?_
      rw [hxc] at h
      exact h (List.mem_cons_self c xs)
    rw [listFindIdx, hx, ih (fun hm => h (List.mem_cons_of_mem x hm))]
    rfl

/-- Model of Python str.find(c): first index or -1. -/
def pyFind (s : String) (c : Char) : Int :=
  match listFindIdx c s.data with
  | some i => (i : Int)
  | none => -1

/-- Model of Python str.rfind(c): last index or -1. -/
def pyRfind (s : String) (c : Char) : Int :=
  match listFindIdx c s.data.reverse with
  | some i => (s.data.length : Int) - 1 - (i : Int)
  | none => -1

/-- Conversion of one Python slice bound over a string of length n:
negative bounds count from the end and bounds are clamped to the string. -/
def pySliceIndex (n : Nat) (i : Int) : Nat :=
  if i < 0 then (max (i + n) 0).toNat else min i.toNat n

/-- Model of Python string slicing s a:b with possibly negative bounds. -/
def pySlice (s : String) (a b : Int) : String :=
  ⟨(s.data.take (pySliceIndex s.data.length b)).drop
    (pySliceIndex s.data.length a)⟩

namespace ConversationalCollector

/-- The bracket matching of ConversationalCollector.extract_information:
the substring from the first opening brace to the last closing brace of the
raw oracle response, with Python slicing semantics. -/
def bracket_slice (result_text : String) : String :=
  pySlice result_text (pyFind result_text '{') (pyRfind result_text '}' + 1)

/-- The local-recovery value of extract_information: empty extracted
fields, empty confidence, the full schema field list as missing, no
clarifications. -/
def default_extraction_result (route : String) : PyVal :=
  .pdict [("extracted_fields", .pdict []),
          ("confidence", .pdict []),
          ("missing_fields", .plist ((required_fields route).map
            (fun f => PyVal.pstr f.1))),
          ("clarifications_needed", .plist [])]

/-- ConversationalCollector.extract_information, given the raw text of the
oracle response: bracket-match the response, hand the slice to the JSON
decoder (modelled as the json_loads argument, since json.loads is a
library function the source treats as opaque), and return whatever decodes
- the source performs no validation of the decoded value - or the default
extraction result when decoding raises. -/
def extract_information (json_loads : String → Option PyVal) (route : String)
    (result_text : String) : PyVal :=
  match json_loads (bracket_slice result_text) with
  | some result => result
  | none => default_extraction_result route

/-- C5: whenever the bracket-matched substring of the oracle response fails
to decode, extract_information returns the default extraction result -
empty extracted_fields, empty confidence, missing_fields equal to the full
schema field list of the domain, empty clarifications - and no exception
reaches the caller (every outcome of the decoder yields a value); in
particular this holds for a response containing no braces at all, whose
bracket slice is the empty string, which the decoder rejects. -/
theorem extract_information_recovery (json_loads : String → Option PyVal)
    (route : String) (result_text : String) :
    (json_loads (bracket_slice result_text) = none →
      extract_information json_loads route result_text =
        default_extraction_result route) ∧
    (result_text.data.contains '{' = false →
      result_text.data.contains '}' = false →
      json_loads "" = none →
      extract_information json_loads route result_text =
        default_extraction_result route) ∧
    default_extraction_result route =
      .pdict [("extracted_fields", .pdict []),
              ("confidence", .pdict []),
              ("missing_fields", .plist ((required_fields route).map
                (fun f => PyVal.pstr f.1))),
              ("clarifications_needed", .plist [])] := by
  refine ⟨?_, ?_, rfl⟩
  · intro h
    rw [extract_information, h]
  · intro h1 h2 hj
    have h2' : '}' ∉ result_text.data.reverse := by
      rw [List.mem_reverse]
      simpa using h2
    have hslice : bracket_slice result_text = "" := by
      rw [bracket_slice, pyRfind, listFindIdx_none '}' _ h2']
      rw [pySlice]
      norm_num [pySliceIndex]
    rw [extract_information, hslice, hj]

/-- Witness for C5: a prose-only oracle response with no braces yields the
default extraction result under a decoder that rejects the empty string. -/
theorem extract_information_recovery_w :
    extract_information (fun _ => none) "compensation"
      "I cannot produce structured output for this request." =
    default_extraction_result "compensation" :=
  (extract_information_recovery (fun _ => none) "compensation"
      "I cannot produce structured output for this request.").2.1
    (by decide) (by decide) rfl

end ConversationalCollector

/-- Numeric value of a digit string, most significant digit first. -/
def digitsVal (l : List Char) : Nat :=
  l.foldl (fun a c => a * 10 + (c.toNat - 48)) 0

/-- Sign handling of Python float parsing: one optional leading sign. -/
def pyFloatSign (l : List Char) : Bool × List Char :=
  match l with
  | [] => (false, [])
  | c :: r =>
    if c = '-' then (true, r)
    else if c = '+' then (false, r)
    else (false, c :: r)

/-- Magnitude of Python float parsing: an integer part and an optional
fractional part, at least one of them non-empty.  Exponent, infinity, nan
and underscore forms accepted by Python are omitted; none of them can be
produced by the salary strings the claims quantify over, and every omitted
form is rejected, which only sends more inputs to the 0.0 fallback the
claims describe. -/
def pyFloatMag? (r : List Char) : Option ℚ :=
  match r.drop (r.takeWhile Char.isDigit).length with
  | [] =>
    if (r.takeWhile Char.isDigit).isEmpty then none
    else some ((digitsVal (r.takeWhile Char.isDigit) : ℚ))
  | '.' :: f =>
    if f.all Char.isDigit && !((r.takeWhile Char.isDigit).isEmpty && f.isEmpty)
    then some ((digitsVal (r.takeWhile Char.isDigit) : ℚ)
        + (digitsVal f : ℚ) / (10 : ℚ) ^ f.length)
    else none
  | _ => none

/-- Model of the Python float constructor on strings, with float values
modelled exactly as rationals: strip surrounding whitespace, read one
optional sign, then a decimal magnitude; anything else raises, modelled as
none. -/
def pyFloat? (s : String) : Option ℚ :=
  match pyFloatMag? (pyFloatSign (pyStrip s).data).2 with
  | some q => some (if (pyFloatSign (pyStrip s).data).1 then -q else q)
  | none => none

theorem isDigit_facts {c : Char} (h : c.isDigit = true) :
    (c == 'k') = false ∧ c.isWhitespace = false ∧ c ≠ '-' ∧ c ≠ '+' := by
  have hb : '0' ≤ c ∧ c ≤ '9' := by simpa [Char.isDigit] using h
  refine ⟨?_, ?_, ?_, ?_⟩
  · refine beq_eq_false_iff_ne.mpr fun hc => ?_
    subst hc
    exact absurd hb (by decide)
  · by_contra hw
    have hw' : c.isWhitespace = true := by simpa using hw
    have hcases : ((c = ' ' ∨ c = '\t') ∨ c = '\r') ∨ c = '\n' := by
      simpa [Char.isWhitespace] using hw'
    rcases hcases with ((h1 | h1) | h1) | h1 <;>
      (subst h1; exact absurd hb (by decide))
  · intro hc
    subst hc
    exact absurd hb (by decide)
  · intro hc
    subst hc
    exact absurd hb (by decide)

theorem dropWhile_false {p : Char → Bool} :
    ∀ l : List Char, (∀ c ∈ l, p c = false) → l.dropWhile p = l := by
  intro l h
  cases l with
  | nil => rfl
  | cons x xs =>
    rw [List.dropWhile_cons, h x (List.mem_cons_self x xs)]
    simp

theorem takeWhile_true {p : Char → Bool} :
    ∀ l : List Char, (∀ c ∈ l, p c = true) → l.takeWhile p = l := by
  intro l
  induction l with
  | nil => intro; rfl
  | cons x xs ih =>
    intro h
    rw [List.takeWhile_cons, h x (List.mem_cons_self x xs)]
    simp only [if_true]
    rw [ih (fun c hc => h c (List.mem_cons_of_mem x hc))]

theorem pyStrip_data_all_nonws (l : List Char)
    (h : ∀ c ∈ l, c.isWhitespace = false) : (pyStrip ⟨l⟩).data = l := by
  show ((l.dropWhile Char.isWhitespace).reverse.dropWhile Char.isWhitespace).reverse = l
  rw [dropWhile_false l h,
    dropWhile_false l.reverse (fun c hc => h c (List.mem_reverse.mp hc)),
    List.reverse_reverse]

theorem pyFloat_digits (ds : List Char) (hne : ds ≠ [])
    (h : ds.all Char.isDigit = true) :
    pyFloat? ⟨ds⟩ = some ((digitsVal ds : ℚ)) := by
  have hall : ∀ c ∈ ds, c.isDigit = true := by
    simpa [List.all_eq_true] using h
  have hs : (pyStrip ⟨ds⟩).data = ds :=
    pyStrip_data_all_nonws ds (fun c hc => ((isDigit_facts (hall c hc)).2.1))
  obtain ⟨d, rest, rfl⟩ : ∃ d rest, ds = d :: rest := by
    cases ds with
    | nil => exact absurd rfl hne
    | cons d r => exact ⟨d, r, rfl⟩
  have hd := isDigit_facts (hall d (List.mem_cons_self d rest))
  have hsign : pyFloatSign (d :: rest) = (false, d :: rest) := by
    simp [pyFloatSign, hd.2.2.1, hd.2.2.2]
  have htake : (d :: rest).takeWhile Char.isDigit = d :: rest :=
    takeWhile_true _ hall
  have hmag : pyFloatMag? (d :: rest) = some ((digitsVal (d :: rest) : ℚ)) := by
    rw [pyFloatMag?.eq_def, htake, List.drop_length]
    simp
  rw [pyFloat?.eq_def, hs, hsign]
  simp [hmag]

namespace MCPClient

/-- The cleaned string of MCPClient._parse_salary: remove commas and dollar
signs, then strip surrounding whitespace. -/
def salary_cleaned (salary_str : String) : String :=
  pyStrip (removeChar (removeChar salary_str ',') '$')

/-- MCPClient._parse_salary: when the lower-cased cleaned string contains
the letter k anywhere, remove every k and parse the remainder as a float
times 1000; otherwise parse the first whitespace-separated token as a
float; any parse failure (including an empty token list) is caught by the
bare except and yields 0.0. -/
def parse_salary (salary_str : String) : ℚ :=
  if (pyLower (salary_cleaned salary_str)).data.contains 'k' then
    match pyFloat? (removeChar (pyLower (salary_cleaned salary_str)) 'k') with
    | some q => q * 1000
    | none => 0
  else
    match (pySplitWs (salary_cleaned salary_str)).head? with
    | some t => (pyFloat? t).getD 0
    | none => 0

/-- C10 counterexample: the claim says a string whose first
whitespace-separated token is numeric yields that number, but for
100 kr the k branch fires (k occurs in the cleaned string), every k is
removed, float parsing of 100 r fails, and the result is 0 instead of
100 - even though the first token 100 is numeric. -/
theorem parse_salary_k_branch_shadows_token :
    parse_salary "100 kr" = 0 ∧
    pySplitWs (salary_cleaned "100 kr") = ["100", "kr"] ∧
    pyFloat? "100" = some 100 ∧
    (0 : ℚ) ≠ 100 := by
  refine ⟨by decide, by decide, by decide, by norm_num⟩

/-- C10 amended: the salary parser is total by construction (every branch,
including every parse failure, yields a rational, with 0 as the silent
failure value) and behaves as follows: when the lower-cased cleaned string
contains the letter k anywhere, every k is removed and the whole remainder
is parsed and multiplied by 1000 - in particular a pure digit string
followed by k yields its value times 1000, and a failing remainder yields
0; only when no k is present is the first whitespace-separated token
parsed, yielding its value, and 0 when it fails to parse or there is no
token at all (for example the empty string or prose input). -/
theorem parse_salary_amended (s : String) :
    (∀ ds : List Char, ds ≠ [] → ds.all Char.isDigit = true →
      (pyLower (salary_cleaned s)).data = ds ++ ['k'] →
      parse_salary s = (digitsVal ds : ℚ) * 1000) ∧
    ((pyLower (salary_cleaned s)).data.contains 'k' = false →
      ∀ (t : String) (ts : List String) (q : ℚ),
        pySplitWs (salary_cleaned s) = t :: ts →
        pyFloat? t = some q →
        parse_salary s = q) ∧
    ((pyLower (salary_cleaned s)).data.contains 'k' = true →
      pyFloat? (removeChar (pyLower (salary_cleaned s)) 'k') = none →
      parse_salary s = 0) ∧
    ((pyLower (salary_cleaned s)).data.contains 'k' = false →
      (∀ t : String, (pySplitWs (salary_cleaned s)).head? = some t →
        pyFloat? t = none) →
      parse_salary s = 0) := by
  refine ⟨?_, ?_, ?_, ?_⟩
  · intro ds hne hdig hdata
    have hall : ∀ c ∈ ds, c.isDigit = true := by
      simpa [List.all_eq_true] using hdig
    have hcon : (pyLower (salary_cleaned s)).data.contains 'k' = true :=
      List.elem_eq_true_of_mem (by rw [hdata]; simp)
    have hrc : removeChar (pyLower (salary_cleaned s)) 'k' = ⟨ds⟩ := by
      show String.mk ((pyLower (salary_cleaned s)).data.filter
        (fun d => d != 'k')) = String.mk ds
      rw [hdata]
      congr 1
      rw [List.filter_append]
      have hfil : ds.filter (fun d => d != 'k') = ds :=
        List.filter_eq_self.mpr (fun a ha => by
          have hk := (isDigit_facts (hall a ha)).1
          simp [bne, hk])
      rw [hfil]
      simp
    rw [parse_salary, if_pos hcon, hrc, pyFloat_digits ds hne hdig]
  · intro hk t ts q hsplit hq
    rw [parse_salary, if_neg (Bool.eq_false_iff.mp hk), hsplit]
    simp [hq]
  · intro hk hfail
    rw [parse_salary, if_pos hk, hfail]
  · intro hk hnone
    rw [parse_salary, if_neg (Bool.eq_false_iff.mp hk)]
    cases hh : (pySplitWs (salary_cleaned s)).head? with
    | none => rfl
    | some t => simp [hnone t hh]

/-- Witness for C10 amended: 100k parses to 100000 through the k branch,
and 120 parses to 120 through the first-token branch. -/
theorem parse_salary_amended_w :
    parse_salary "100k" = (digitsVal ['1', '0', '0'] : ℚ) * 1000 ∧
    parse_salary "120" = 120 := by
  constructor
  · exact (parse_salary_amended "100k").1 ['1', '0', '0']
      (by decide) (by decide) (by decide)
  · exact (parse_salary_amended "120").2.1 (by decide) "120" [] 120
      (by decide) (by decide)

end MCPClient

theorem lookup_map_pstr (l : List (String × String)) (k : String) :
    (l.map (fun p => (p.1, PyVal.pstr p.2))).lookup k =
      (l.lookup k).map PyVal.pstr := by
  induction l with
  | nil => rfl
  | cons hd tl ih =>
    obtain ⟨a, b⟩ := hd
    by_cases hka : k = a
    · subst hka
      simp [List.lookup]
    · have hb : (k == a) = false := by simpa [beq_eq_false_iff_ne] using hka
      simp only [List.map_cons, List.lookup, hb]
      exact ih

/-- Modelled from the spec: the Sequential Collector question files
(app/agent_configs/compensation_questions.txt and policy_questions.txt,
parsed by InputCollector._load_agent_questions) are not part of the source
tree.  Per the spec the collector asks one question per schema field, in
registry order, so the question list of a domain is derived from the field
schema registry, with empty options and format hint. -/
def questions_for (route : String) : List InputCollector.Question :=
  (ConversationalCollector.required_fields route).map
    (fun f => { title := f.1, question := f.2, options := [], format := "" })

/-- A full Sequential Collector question walk on a domain: fold
process_answer over the given replies starting from the freshly created
collection state. -/
def run_collection (route : String) (inputs : List String) :
    InputCollector.CollectionState :=
  inputs.foldl
    (fun st inp =>
      (InputCollector.process_answer route (questions_for route) inp st).2.1)
    { current_question := 0, answers := [], completed := false,
      awaiting_confirmation := false }

theorem process_walk_aux (agent_type : String)
    (questions : List InputCollector.Question) :
    ∀ (inputs : List String) (st : InputCollector.CollectionState),
      st.awaiting_confirmation = false →
      st.current_question + inputs.length = questions.length →
      (∀ inp ∈ inputs, pyStrip inp ≠ "") →
      (∀ i (h : i < questions.length), i < st.current_question →
        ∃ v, st.answers.lookup (questions.get ⟨i, h⟩).title = some v ∧ v ≠ "") →
      (inputs.foldl (fun s inp =>
          (InputCollector.process_answer agent_type questions inp s).2.1)
          st).current_question = questions.length ∧
      ∀ i (h : i < questions.length),
        ∃ v, (inputs.foldl (fun s inp =>
            (InputCollector.process_answer agent_type questions inp s).2.1)
            st).answers.lookup (questions.get ⟨i, h⟩).title = some v ∧ v ≠ "" := by
  intro inputs
  induction inputs with
  | nil =>
    intro st hw hcount hne hans
    rw [List.foldl_nil]
    have hst : st.current_question = questions.length := by
      simpa using hcount
    exact ⟨hst, fun i h => hans i h (hst ▸ h)⟩
  | cons inp rest ih =>
    intro st hw hcount hne hans
    have hlen1 : (inp :: rest).length = rest.length + 1 := rfl
    rw [hlen1] at hcount
    have hlt : st.current_question < questions.length := by omega
    have hinp : pyStrip inp ≠ "" := hne inp (List.mem_cons_self inp rest)
    have hans1 : ∀ i (h : i < questions.length), i < st.current_question + 1 →
        ∃ v, (dictSet st.answers (questions.get ⟨st.current_question, hlt⟩).title
            (pyStrip inp)).lookup (questions.get ⟨i, h⟩).title = some v ∧ v ≠ "" := by
      intro i h hi
      by_cases hic : i < st.current_question
      · obtain ⟨v, hv, hvne⟩ := hans i h hic
        rcases lookup_dictSet_or st.answers
            (questions.get ⟨st.current_question, hlt⟩).title (pyStrip inp)
            (questions.get ⟨i, h⟩).title with hb | hb
        · exact ⟨pyStrip inp, hb, hinp⟩
        · exact ⟨v, by rw [hb]; exact hv, hvne⟩
      · have hieq : i = st.current_question := by omega
        subst hieq
        exact ⟨pyStrip inp, lookup_dictSet_self _ _ _, hinp⟩
    by_cases hcond : questions.length ≤ st.current_question + 1
    · have hrest : rest = [] := List.length_eq_zero.mp (by omega)
      subst hrest
      have hstep : (InputCollector.process_answer agent_type questions inp st).2.1
          = ⟨st.current_question + 1,
            dictSet st.answers (questions.get ⟨st.current_question, hlt⟩).title
              (pyStrip inp), st.completed, true⟩ := by
        simp [InputCollector.process_answer, hw, hlt, hcond]
      rw [List.foldl_cons, List.foldl_nil, hstep]
      refine ⟨by simp; omega, ?_⟩
      intro i h
      exact hans1 i h (by omega)
    · have hstep : (InputCollector.process_answer agent_type questions inp st).2.1
          = ⟨st.current_question + 1,
            dictSet st.answers (questions.get ⟨st.current_question, hlt⟩).title
              (pyStrip inp), st.completed, false⟩ := by
        simp [InputCollector.process_answer, hw, hlt, hcond]
      rw [List.foldl_cons, hstep]
      exact ih ⟨st.current_question + 1, _, st.completed, false⟩ rfl
        (by simp; omega) (fun inp' hm => hne inp' (List.mem_cons_of_mem inp hm))
        hans1

/-- C3 amended: is_complete holds exactly when every schema field carries a
non-empty answer, and the Sequential Collector question walk guarantees it
only for non-blank replies: starting a fresh collection and answering every
question of the domain with a reply that is non-empty after stripping
advances current_question to the schema length and makes is_complete true
over the collected answers.  (The unrestricted claimed equivalence fails:
an empty reply is stored verbatim, so the index can reach the schema length
while is_complete is false - see the counterexample - and after an edit
reset is_complete can hold at index 0.) -/
theorem run_collection_complete (route : String) (inputs : List String)
    (hlen : inputs.length = (questions_for route).length)
    (hne : ∀ inp ∈ inputs, pyStrip inp ≠ "") :
    (run_collection route inputs).current_question =
      (questions_for route).length ∧
    ConversationalCollector.is_complete
      ((run_collection route inputs).answers.map
        (fun p => (p.1, PyVal.pstr p.2))) route = true := by
  obtain ⟨hcur, hans⟩ := process_walk_aux route (questions_for route) inputs
    { current_question := 0, answers := [], completed := false,
      awaiting_confirmation := false }
    rfl (by simpa using hlen) hne (by intro i h hi; simp at hi)
  refine ⟨hcur, ?_⟩
  rw [ConversationalCollector.is_complete, List.all_eq_true]
  intro f hf
  obtain ⟨⟨i, hfi⟩, hget⟩ := List.mem_iff_get.mp hf
  have hi' : i < (questions_for route).length := by
    simpa [questions_for] using hfi
  have htitle : ((questions_for route).get ⟨i, hi'⟩).title = f.1 := by
    simp only [questions_for, List.get_map]
    rw [hget]
  obtain ⟨v, hv, hvne⟩ := hans i hi'
  rw [htitle] at hv
  have hv' : (run_collection route inputs).answers.lookup f.1 = some v := hv
  rw [lookup_map_pstr ((run_collection route inputs).answers) f.1, hv']
  have hemp : v.isEmpty = false :=
    Bool.eq_false_iff.mpr (fun hp => hvne ((String.isEmpty_iff v).mp hp))
  simp [truthy, hemp]

/-- Witness for C3 amended: answering all seven compensation questions with
non-blank replies completes the walk and satisfies is_complete. -/
theorem run_collection_complete_w :
    (run_collection "compensation"
      ["Chicago, USA", "Mumbai, India", "120000 USD", "2 years",
       "Senior Engineer", "3", "Company housing"]).current_question =
      (questions_for "compensation").length ∧
    ConversationalCollector.is_complete
      ((run_collection "compensation"
        ["Chicago, USA", "Mumbai, India", "120000 USD", "2 years",
         "Senior Engineer", "3", "Company housing"]).answers.map
        (fun p => (p.1, PyVal.pstr p.2))) "compensation" = true :=
  run_collection_complete "compensation"
    ["Chicago, USA", "Mumbai, India", "120000 USD", "2 years",
     "Senior Engineer", "3", "Company housing"]
    (by decide) (by decide)

/-- C3 counterexample: an empty reply to the first policy question is
stored verbatim, so after answering all five questions the walk has
advanced current_question to the schema length while is_complete is still
false - the claimed equivalence between reaching the schema length and
is_complete does not hold. -/
theorem collector_walk_not_complete :
    (run_collection "policy"
      ["", "Germany", "Long-term", "12 months", "Engineer"]).current_question =
      (questions_for "policy").length ∧
    ConversationalCollector.is_complete
      ((run_collection "policy"
        ["", "Germany", "Long-term", "12 months", "Engineer"]).answers.map
        (fun p => (p.1, PyVal.pstr p.2))) "policy" = false := by
  refine ⟨by decide, by decide⟩

end GlobalIQ
